import Mathlib

/-!
Shallow embedding of `src/media_cleanup.py` (media-cleanup-service-unraid).

Network I/O is modelled by passing each HTTP call's outcome as an input:
a fetch either returns a decoded body or raises `requests.RequestException`
(which also covers `raise_for_status` on a non-2xx fetch response), and the
mutating PUT/DELETE calls either return a response carrying a status code
(never inspected by the code) or raise.  Python dict lookups on episode
records are modelled with `Option` fields: `none` means the key is absent,
so `episode[k]` raises `KeyError` and `episode.get(k, d)` yields `d`.
Exceptions are modelled with `Except`; `time` is passed in as the already
computed threshold datetime (`datetime.now() - timedelta(days=...)`).
-/

/-- A naive `datetime` value as produced by `datetime.strptime`. -/
structure PyDateTime where
  year : Nat
  month : Nat
  day : Nat
  hour : Nat
  minute : Nat
  second : Nat
deriving DecidableEq, Repr

/-- Python `datetime` comparison: lexicographic on the six fields. -/
def PyDateTime.lt (a b : PyDateTime) : Bool :=
  (a.year < b.year) ||
  (a.year == b.year && ((a.month < b.month) ||
   (a.month == b.month && ((a.day < b.day) ||
    (a.day == b.day && ((a.hour < b.hour) ||
     (a.hour == b.hour && ((a.minute < b.minute) ||
      (a.minute == b.minute && a.second < b.second)))))))))

def isLeapYear (y : Nat) : Bool :=
  (y % 4 == 0 && y % 100 != 0) || y % 400 == 0

def daysInMonth (y m : Nat) : Nat :=
  if m == 2 then (if isLeapYear y then 29 else 28)
  else if m == 4 || m == 6 || m == 9 || m == 11 then 30
  else 31

/-- Read exactly `n` decimal digits, returning their value and the rest. -/
def readDigits : Nat → Nat → List Char → Option (Nat × List Char)
  | 0, acc, cs => some (acc, cs)
  | _ + 1, _, [] => none
  | n + 1, acc, c :: cs =>
    if c.isDigit then readDigits n (acc * 10 + (c.toNat - 48)) cs else none

def expectChar (c : Char) : List Char → Option (List Char)
  | [] => none
  | x :: xs => if x == c then some xs else none

/-- Model of `datetime.strptime(s, "%Y-%m-%dT%H:%M:%SZ")`: `none` models the
`ValueError` raised on a malformed string.  Field widths are the canonical
fixed-width form of the format; range checks mirror `strptime` plus the
`datetime` constructor (month 1-12, day within the month, hour ≤ 23,
minute ≤ 59, second ≤ 59, year ≥ 1). -/
def parseDateUtc (s : String) : Option PyDateTime := do
  let (y, r) ← readDigits 4 0 s.toList
  let r ← expectChar '-' r
  let (mo, r) ← readDigits 2 0 r
  let r ← expectChar '-' r
  let (d, r) ← readDigits 2 0 r
  let r ← expectChar 'T' r
  let (h, r) ← readDigits 2 0 r
  let r ← expectChar ':' r
  let (mi, r) ← readDigits 2 0 r
  let r ← expectChar ':' r
  let (sec, r) ← readDigits 2 0 r
  let r ← expectChar 'Z' r
  if r = [] ∧ 1 ≤ y ∧ 1 ≤ mo ∧ mo ≤ 12 ∧ 1 ≤ d ∧ d ≤ daysInMonth y mo ∧
     h ≤ 23 ∧ mi ≤ 59 ∧ sec ≤ 59 then
    some ⟨y, mo, d, h, mi, sec⟩
  else
    none

/-- An episode record as returned by `GET /api/v3/episode`; `none` fields
model absent dict keys. -/
structure Episode where
  id : Option Nat
  title : Option String
  airDateUtc : Option String
  hasFile : Option Bool
  episodeFileId : Option Nat
  monitored : Option Bool
deriving DecidableEq, Repr

/-- A series record as returned by `GET /api/v3/series`, with the fields the
code reads (documented response shape). -/
structure Series where
  id : Nat
  title : String
  seriesType : String
deriving DecidableEq, Repr

/-- Outcome of a `requests.get(...)` plus `raise_for_status()` plus
`.json()`: either a decoded list or a raised `requests.RequestException`
(transport failure or non-2xx status). -/
inductive FetchResult (α : Type) where
  | ok (items : List α)
  | requestError (msg : String)
deriving DecidableEq, Repr

/-- Exceptions that are *not* `requests.RequestException` and hence are not
caught by the fetch-level handlers. -/
inductive PyExc where
  | keyError (field : String)
  | valueError (badInput : String)
deriving DecidableEq, Repr

/-- Embedding of `SonarrManager.get_daily_series`, lines 52-64.  Returns the filtered
series list and the error-log lines emitted.  On `RequestException` the
handler logs and returns `[]`. -/
def SonarrManager.get_daily_series (fetch : FetchResult Series) :
    List Series × List String :=
  match fetch with
  | .requestError msg =>
    ([], ["Failed to fetch series from Sonarr: " ++ msg])
  | .ok series =>
    (series.filter (fun s => s.seriesType == "daily"), [])

/-- The predicate of the list comprehension in lines 77-81:
`strptime(episode["airDateUtc"], ...) < threshold_date and
episode.get("hasFile", False)`, on episodes whose date parses. -/
def eligibleB (ep : Episode) (thr : PyDateTime) : Bool :=
  (match ep.airDateUtc with
   | none => false
   | some s =>
     match parseDateUtc s with
     | none => false
     | some d => PyDateTime.lt d thr) && ep.hasFile.getD false

/-- The list comprehension of lines 77-81, with the exceptions it can raise:
`episode["airDateUtc"]` raises `KeyError` when the key is absent and
`strptime` raises `ValueError` on a malformed string; both escape the
handler, which catches only `RequestException`. -/
def eligibleComprehension (thr : PyDateTime) :
    List Episode → Except PyExc (List Episode)
  | [] => .ok []
  | ep :: rest =>
    match ep.airDateUtc with
    | none => .error (.keyError "airDateUtc")
    | some s =>
      match parseDateUtc s with
      | none => .error (.valueError s)
      | some d =>
        match eligibleComprehension thr rest with
        | .error e => .error e
        | .ok tail =>
          if PyDateTime.lt d thr && ep.hasFile.getD false then
            .ok (ep :: tail)
          else
            .ok tail

/-- Embedding of `SonarrManager.get_episodes_to_delete`, lines 66-84.  First component:
the returned list, or the uncaught exception escaping the function.  Second
component: error-log lines. -/
def SonarrManager.get_episodes_to_delete (seriesId : Nat)
    (fetch : FetchResult Episode) (thr : PyDateTime) :
    Except PyExc (List Episode) × List String :=
  match fetch with
  | .requestError msg =>
    (.ok [], ["Failed to fetch episodes for series " ++ toString seriesId ++
              ": " ++ msg])
  | .ok episodes => (eligibleComprehension thr episodes, [])

/-- A mutating HTTP call issued by `process_episode`. -/
inductive HttpCall where
  | put (episodeId : Nat)
  | delete (fileId : Nat)
deriving DecidableEq, Repr

/-- Outcome of `requests.put` / `requests.delete`: a response object whose
status code the code never inspects (no `raise_for_status` on these calls),
or a raised exception. -/
inductive HttpResult where
  | response (status : Nat)
  | raises (msg : String)
deriving DecidableEq, Repr

/-- Result of one `process_episode` invocation: the returned bool, the
mutating calls issued, and the log lines. -/
structure EpisodeResult where
  success : Bool
  calls : List HttpCall
  infoLog : List String
  errorLog : List String
deriving DecidableEq, Repr

def episodeIdStr (ep : Episode) : String :=
  match ep.id with
  | some i => toString i
  | none => "None"

def processErrLine (ep : Episode) (msg : String) : String :=
  "Failed to process Sonarr episode " ++ episodeIdStr ep ++ ": " ++ msg

def processInfoLine (ep : Episode) (mode : String) : String :=
  "Processed Sonarr episode: " ++ ep.title.getD "Unknown" ++ " (" ++ mode ++ ")"

/-- Embedding of `SonarrManager.process_episode`, lines 86-109.  Under dry run nothing is
issued and `True` is returned.  Otherwise the episode id is read (KeyError
possible), the PUT issued, the file id read (KeyError possible), the DELETE
issued; any exception is caught by the `except Exception` handler which logs
and returns `False`.  Response status codes are never examined. -/
def SonarrManager.process_episode (ep : Episode) (dry_run : Bool)
    (net : HttpCall → HttpResult) : EpisodeResult :=
  if dry_run then
    { success := true, calls := [],
      infoLog := [processInfoLine ep "Dry run"], errorLog := [] }
  else
    match ep.id with
    | none =>
      { success := false, calls := [], infoLog := [],
        errorLog := [processErrLine ep "KeyError: id"] }
    | some i =>
      match net (.put i) with
      | .raises m =>
        { success := false, calls := [.put i], infoLog := [],
          errorLog := [processErrLine ep m] }
      | .response _ =>
        match ep.episodeFileId with
        | none =>
          { success := false, calls := [.put i], infoLog := [],
            errorLog := [processErrLine ep "KeyError: episodeFileId"] }
        | some f =>
          match net (.delete f) with
          | .raises m =>
            { success := false, calls := [.put i, .delete f], infoLog := [],
              errorLog := [processErrLine ep m] }
          | .response _ =>
            { success := true, calls := [.put i, .delete f],
              infoLog := [processInfoLine ep "Deleted"], errorLog := [] }

/-- A Plex library section: title, type, and whether `section.update()`
raises when invoked. -/
structure PlexSectionLib where
  title : String
  type : String
  updateRaises : Bool
deriving DecidableEq, Repr

/-- The loop body of `PlexManager.refresh_libraries`: sections of type
"show" are updated in order; an exception aborts the loop and is caught by
the function-level handler. Returns (refreshed titles, error-log lines). -/
def refreshLoop : List PlexSectionLib → List String × List String
  | [] => ([], [])
  | s :: rest =>
    if s.type == "show" then
      if s.updateRaises then
        ([], ["Failed to refresh Plex libraries: " ++ s.title])
      else
        let r := refreshLoop rest
        (s.title :: r.1, r.2)
    else
      refreshLoop rest

/-- Embedding of `PlexManager.refresh_libraries`, lines 120-129: under dry run the loop
body is skipped entirely. -/
def PlexManager.refresh_libraries (dry_run : Bool)
    (sections : List PlexSectionLib) : List String × List String :=
  if dry_run then ([], []) else refreshLoop sections

/-- The `Config` dataclass, lines 20-36. -/
structure Config where
  days_threshold : Int
  media_root : String
  delete_empty_dirs : Bool
  parallel_processing : Bool
  max_workers : Nat
  dry_run : Bool
  sonarr_enabled : Bool := false
  sonarr_api_key : Option String := none
  sonarr_host : Option String := none
  plex_enabled : Bool := false
  plex_url : Option String := none
  plex_token : Option String := none
deriving DecidableEq, Repr

/-- The `cleanup` mapping of the YAML document; `none` = key absent. -/
structure CleanupSection where
  days_threshold : Option Int
  media_root : Option String
  delete_empty_dirs : Option Bool
  dry_run : Option Bool
deriving DecidableEq, Repr

/-- The `performance` mapping of the YAML document; `none` = key absent. -/
structure PerformanceSection where
  parallel_processing : Option Bool
  max_workers : Option Nat
deriving DecidableEq, Repr

/-- The `sonarr` mapping of the YAML document; `none` = key absent. -/
structure SonarrSection where
  api_key : Option String
  host : Option String
deriving DecidableEq, Repr

/-- The `plex` mapping of the YAML document; `none` = key absent. -/
structure PlexSection where
  url : Option String
  token : Option String
deriving DecidableEq, Repr

/-- A parsed YAML configuration document; `none` = top-level key absent. -/
structure YamlDoc where
  cleanup : Option CleanupSection
  performance : Option PerformanceSection
  sonarr : Option SonarrSection
  plex : Option PlexSection
deriving DecidableEq, Repr

/-- Dict lookup `data[k]`: a `KeyError` when the key is absent. -/
def getKey {α : Type} (v : Option α) (name : String) : Except String α :=
  match v with
  | some x => .ok x
  | none => .error ("KeyError: " ++ name)

/-- Embedding of `MediaCleaner._load_config`, lines 150-186.  Every exception inside the
`try` (KeyError on a required key or section, the ValueError for no backend)
is caught and turns into `sys.exit`, modelled as `.error`.  `.get` with a
default never raises. -/
def MediaCleaner.load_config (data : YamlDoc) : Except String Config := do
  let cleanup ← getKey data.cleanup "cleanup"
  let days ← getKey cleanup.days_threshold "days_threshold"
  let root ← getKey cleanup.media_root "media_root"
  let ded := cleanup.delete_empty_dirs.getD true
  let perf ← getKey data.performance "performance"
  let pp := perf.parallel_processing.getD true
  let mw := perf.max_workers.getD 4
  let dr := cleanup.dry_run.getD false
  let base : Config :=
    { days_threshold := days, media_root := root, delete_empty_dirs := ded,
      parallel_processing := pp, max_workers := mw, dry_run := dr }
  let cfg1 ← match data.sonarr with
    | none => pure base
    | some s => do
      let k ← getKey s.api_key "api_key"
      let h ← getKey s.host "host"
      pure { base with sonarr_enabled := true, sonarr_api_key := some k,
                       sonarr_host := some h }
  let cfg2 ← match data.plex with
    | none => pure cfg1
    | some p => do
      let u ← getKey p.url "url"
      let t ← getKey p.token "token"
      pure { cfg1 with plex_enabled := true, plex_url := some u,
                       plex_token := some t }
  if cfg2.sonarr_enabled || cfg2.plex_enabled then
    pure cfg2
  else
    .error "Neither Sonarr nor Plex is configured"

/-- Behaviour of one directory met by the pruning walk, in walk order
(`os.walk(..., topdown=False)`, children before parents): `os.listdir`
raises, or the directory is non-empty, or it is empty and `os.rmdir`
succeeds or raises. -/
inductive DirOutcome where
  | listRaises
  | nonEmptyDir
  | emptyRmOk
  | emptyRmRaises
deriving DecidableEq, Repr

/-- Whether this outcome raises an exception when the walk reaches it. -/
def DirOutcome.raisesExc : DirOutcome → Bool
  | .listRaises => true
  | .emptyRmRaises => true
  | _ => false

/-- Whether this outcome is an empty directory whose removal succeeds. -/
def DirOutcome.removes : DirOutcome → Bool
  | .emptyRmOk => true
  | _ => false

/-- The walk loop of lines 208-213.  The single `try` wraps the whole loop,
so the first exception ends the walk; the handler logs once and returns.
Returns (paths of removed directories, error-log lines). -/
def pruneLoop : List (String × DirOutcome) → List String × List String
  | [] => ([], [])
  | (p, o) :: rest =>
    match o with
    | .listRaises => ([], ["Failed to cleanup empty directories: " ++ p])
    | .emptyRmRaises => ([], ["Failed to cleanup empty directories: " ++ p])
    | .nonEmptyDir => pruneLoop rest
    | .emptyRmOk =>
      let r := pruneLoop rest
      (p :: r.1, r.2)

/-- Embedding of `MediaCleaner.cleanup_empty_directories`, lines 202-215. -/
def MediaCleaner.cleanup_empty_directories (cfg : Config)
    (dirs : List (String × DirOutcome)) : List String × List String :=
  if !cfg.delete_empty_dirs || cfg.dry_run then ([], [])
  else pruneLoop dirs

/-- One run's external world: the series fetch outcome, each series' episode
fetch outcome, the behaviour of every mutating HTTP call, the Plex sections,
and the directories met by the pruning walk. -/
structure RunEnv where
  seriesFetch : FetchResult Series
  episodesFetch : Nat → FetchResult Episode
  net : HttpCall → HttpResult
  sections : List PlexSectionLib
  dirs : List (String × DirOutcome)

/-- Observable outcome of `MediaCleaner.run`: the aggregate counter, the
mutating effects performed, and the exception escaping `run`, if any. -/
structure RunOutcome where
  total_processed : Nat
  calls : List HttpCall
  refreshed : List String
  removedDirs : List String
  uncaught : Option PyExc
deriving DecidableEq, Repr

/-- The per-series loop of `run`, lines 228-245.  Each series' episodes are
fetched and processed; an uncaught exception from the fetch comprehension
aborts the loop (and the run).  With parallel processing the pool maps
`process_episode` over the batch and the counter adds
`sum(1 for r in results if r)` from the collected list; sequentially the
loop increments per success.  `max_workers` only bounds pool concurrency and
does not affect the collected results.  Returns
(count added, calls issued, escaping exception). -/
def processSeriesList (cfg : Config) (thr : PyDateTime) (env : RunEnv) :
    List Series → Nat × List HttpCall × Option PyExc
  | [] => (0, [], none)
  | serie :: rest =>
    match (SonarrManager.get_episodes_to_delete serie.id
            (env.episodesFetch serie.id) thr).1 with
    | .error e => (0, [], some e)
    | .ok eps =>
      if eps.isEmpty then
        processSeriesList cfg thr env rest
      else
        let results := eps.map
          (fun ep => SonarrManager.process_episode ep cfg.dry_run env.net)
        let c :=
          if cfg.parallel_processing then
            (results.filter (fun r => r.success)).length
          else
            results.foldl (fun acc r => if r.success then acc + 1 else acc) 0
        let calls := (results.map (fun r => r.calls)).flatten
        let r := processSeriesList cfg thr env rest
        (c + r.1, calls ++ r.2.1, r.2.2)

/-- Assembly of the run outcome from the Sonarr phase's result: when an
exception escaped the Sonarr phase the run aborts before the Plex refresh
and the directory pruning; otherwise both follow-on phases execute per
their config flags (lines 247-254). -/
def runAssemble (cfg : Config) (env : RunEnv) :
    Nat × List HttpCall × Option PyExc → RunOutcome
  | (cnt, calls, some e) =>
    { total_processed := cnt, calls := calls, refreshed := [],
      removedDirs := [], uncaught := some e }
  | (cnt, calls, none) =>
    { total_processed := cnt, calls := calls,
      refreshed :=
        if cfg.plex_enabled then
          (PlexManager.refresh_libraries cfg.dry_run env.sections).1
        else [],
      removedDirs :=
        if cfg.delete_empty_dirs then
          (MediaCleaner.cleanup_empty_directories cfg env.dirs).1
        else [],
      uncaught := none }

/-- Embedding of `MediaCleaner.run`, lines 217-257: Sonarr phase (if enabled), then Plex
refresh (if enabled), then directory pruning (if enabled); an exception
escaping the Sonarr phase aborts the run before the later phases. -/
def MediaCleaner.run (cfg : Config) (thr : PyDateTime) (env : RunEnv) :
    RunOutcome :=
  runAssemble cfg env
    (if cfg.sonarr_enabled then
      processSeriesList cfg thr env
        (SonarrManager.get_daily_series env.seriesFetch).1
    else (0, [], none))

/-! Concrete inputs used by witnesses and counterexamples. -/

/-- Cutoff used in concrete scenarios (spec scenario: threshold = 30 days). -/
def thrW : PyDateTime := ⟨2026, 9, 12, 0, 0, 0⟩

/-- E1 of the spec scenario: aired 40 days before the cutoff, file present. -/
def epE1 : Episode :=
  { id := some 1, title := some "E1",
    airDateUtc := some "2026-08-03T08:00:00Z", hasFile := some true,
    episodeFileId := some 101, monitored := some true }

/-- E2 of the spec scenario: aired 10 days after the cutoff, file present. -/
def epE2 : Episode :=
  { id := some 2, title := some "E2",
    airDateUtc := some "2026-10-02T08:00:00Z", hasFile := some true,
    episodeFileId := some 102, monitored := some true }

/-- E3 of the spec scenario: aired 50 days before the cutoff, no file. -/
def epE3 : Episode :=
  { id := some 3, title := some "E3",
    airDateUtc := some "2026-07-24T08:00:00Z", hasFile := some false,
    episodeFileId := some 103, monitored := some true }

example : parseDateUtc "2026-08-03T08:00:00Z" = some ⟨2026, 8, 3, 8, 0, 0⟩ := by decide
example : parseDateUtc "not-a-date" = none := by decide
example : parseDateUtc "2026-13-01T00:00:00Z" = none := by decide
example : eligibleComprehension thrW [epE1, epE2, epE3] = .ok [epE1] := rfl

/-! Claim theorems. -/

/-- C6: for every episode, `process_episode` with `dry_run = true` returns
success unconditionally, issues no network calls, and logs one line with the
episode title marking it a dry run. -/
theorem C6_dry_run_always_succeeds (ep : Episode) (net : HttpCall → HttpResult) :
    SonarrManager.process_episode ep true net =
      { success := true, calls := [],
        infoLog := [processInfoLine ep "Dry run"],
        errorLog := [] } := rfl

/-- C8: for every fetched series list, the daily filter returns a
subsequence of its input in which every element's `seriesType` is exactly
"daily"; the empty input, and the empty list produced by a failed fetch,
both yield an empty output. -/
theorem C8_daily_filter (series : List Series) (msg : String) :
    ((SonarrManager.get_daily_series (.ok series)).1).Sublist series ∧
    (∀ s ∈ (SonarrManager.get_daily_series (.ok series)).1,
      s.seriesType = "daily") ∧
    (SonarrManager.get_daily_series (.ok [])).1 = [] ∧
    (SonarrManager.get_daily_series (.requestError msg)).1 = [] := by
  refine ⟨List.filter_sublist _, ?_, rfl, rfl⟩
  intro s hs
  have h := List.of_mem_filter hs
  simpa using h

/-- C7: a transport failure fetching a series' episodes is caught at the
eligibility boundary, yielding an empty list plus one logged error, and the
per-series loop of `run` just moves on to the remaining series. -/
theorem C7_fetch_error_isolated (cfg : Config) (thr : PyDateTime)
    (env : RunEnv) (s : Series) (rest : List Series) (msg : String)
    (h : env.episodesFetch s.id = .requestError msg) :
    SonarrManager.get_episodes_to_delete s.id (env.episodesFetch s.id) thr =
      (.ok [], ["Failed to fetch episodes for series " ++ toString s.id ++
                ": " ++ msg]) ∧
    processSeriesList cfg thr env (s :: rest) =
      processSeriesList cfg thr env rest := by
  refine ⟨by rw [h]; rfl, ?_⟩
  simp [processSeriesList, SonarrManager.get_episodes_to_delete, h]

/-- Configuration used in concrete run scenarios: Sonarr enabled, pruning
enabled, no dry run. -/
def cfgLive : Config :=
  { days_threshold := 30, media_root := "/media", delete_empty_dirs := true,
    parallel_processing := true, max_workers := 4, dry_run := false,
    sonarr_enabled := true, sonarr_api_key := some "key",
    sonarr_host := some "http://sonarr:8989" }

/-- Environment where the only series' episode fetch raises a transport
error. -/
def envFetchFail : RunEnv :=
  { seriesFetch := .ok [⟨7, "Show", "daily"⟩],
    episodesFetch := fun _ => .requestError "timeout",
    net := fun _ => .response 200,
    sections := [], dirs := [] }

theorem C7_fetch_error_isolated_witness :
    envFetchFail.episodesFetch 7 = .requestError "timeout" ∧
    (SonarrManager.get_episodes_to_delete 7 (envFetchFail.episodesFetch 7)
        thrW =
      (.ok [], ["Failed to fetch episodes for series 7: timeout"]) ∧
    processSeriesList cfgLive thrW envFetchFail [⟨7, "Show", "daily"⟩] =
      processSeriesList cfgLive thrW envFetchFail []) :=
  ⟨rfl, C7_fetch_error_isolated cfgLive thrW envFetchFail ⟨7, "Show", "daily"⟩
    [] "timeout" rfl⟩

/-- Episode with both ids present, used against non-2xx responses. -/
def epC2 : Episode :=
  { id := some 11, title := some "Old episode",
    airDateUtc := some "2020-01-01T00:00:00Z", hasFile := some true,
    episodeFileId := some 77, monitored := some true }

/-- Network behaviour answering HTTP 500 (a non-2xx status, no exception
raised) to every mutating call. -/
def net500 : HttpCall → HttpResult := fun _ => .response 500

/-- C2 counterexample: with `dry_run = false` and both the unmonitor PUT
and the file DELETE answered by HTTP 500 — a non-2xx response — the code
still returns success = true, because neither call's status code is ever
checked; the claim that a non-2xx response forces success = false is false
on the code. -/
theorem C2_counterexample :
    net500 (.put 11) = .response 500 ∧
    net500 (.delete 77) = .response 500 ∧
    (SonarrManager.process_episode epC2 false net500).success = true := by
  exact ⟨rfl, rfl, rfl⟩

/-- C2 amended: with `dry_run = false`, `process_episode` reports
success = true exactly when both dict lookups succeed and neither the PUT
nor the DELETE raises an exception; the responses' HTTP status codes are
never inspected, so a non-2xx response that raises nothing still yields
success = true. -/
theorem C2_success_iff_no_exception (ep : Episode)
    (net : HttpCall → HttpResult) :
    (SonarrManager.process_episode ep false net).success = true ↔
    ∃ i f si sf, ep.id = some i ∧ ep.episodeFileId = some f ∧
      net (.put i) = .response si ∧ net (.delete f) = .response sf := by
  unfold SonarrManager.process_episode
  cases hid : ep.id with
  | none => simp [hid]
  | some i =>
    cases hput : net (.put i) with
    | raises m => simp [hid, hput]
    | response st =>
      cases hfid : ep.episodeFileId with
      | none => simp [hid, hput, hfid]
      | some f =>
        cases hdel : net (.delete f) with
        | raises m2 => simp [hid, hput, hfid, hdel]
        | response st2 =>
          simp only [hid, hput, hfid, hdel]
          constructor
          · intro _
            exact ⟨i, f, st, st2, rfl, rfl, hput, hdel⟩
          · intro _
            rfl

/-- Well-delivered episode record whose `airDateUtc` key is absent. -/
def epNoAirDate : Episode :=
  { id := some 9, title := some "No air date",
    airDateUtc := none, hasFile := some true,
    episodeFileId := some 90, monitored := some true }

/-- Well-delivered episode record whose `airDateUtc` string is not in the
format `YYYY-MM-DDTHH:MM:SSZ`. -/
def epBadDate : Episode :=
  { id := some 10, title := some "Bad air date",
    airDateUtc := some "not-a-date", hasFile := some true,
    episodeFileId := some 91, monitored := some true }

/-- Environment whose only daily series delivers the record with the
missing `airDateUtc` key. -/
def envBadEpisode : RunEnv :=
  { seriesFetch := .ok [⟨3, "Daily Show", "daily"⟩],
    episodesFetch := fun _ => .ok [epNoAirDate],
    net := fun _ => .response 200,
    sections := [⟨"TV", "show", false⟩],
    dirs := [("/media/empty", .emptyRmOk)] }

/-- C9: the eligibility fetch catches only `RequestException`, so a
well-delivered list containing a record with `airDateUtc` missing raises
`KeyError`, and one with a malformed date string raises `ValueError`; the
exception escapes `get_episodes_to_delete` and aborts the whole run (no
refresh, no pruning after the abort). -/
theorem C9_malformed_date_aborts_run :
    (SonarrManager.get_episodes_to_delete 3 (.ok [epNoAirDate]) thrW).1 =
      .error (.keyError "airDateUtc") ∧
    (SonarrManager.get_episodes_to_delete 3 (.ok [epBadDate]) thrW).1 =
      .error (.valueError "not-a-date") ∧
    MediaCleaner.run cfgLive thrW envBadEpisode =
      { total_processed := 0, calls := [], refreshed := [],
        removedDirs := [], uncaught := some (.keyError "airDateUtc") } :=
  ⟨rfl, rfl, rfl⟩

/-- C1 counterexample: with pruning enabled and no dry run, a walk meeting
first an empty directory whose removal raises and then another empty
removable directory removes nothing at all — the error on the first
directory aborts the pruning of the second, which the same walk without the
failing directory does remove. -/
theorem C1_counterexample :
    (MediaCleaner.cleanup_empty_directories cfgLive
      [("/media/a", .emptyRmRaises), ("/media/b", .emptyRmOk)]).1 = [] ∧
    (MediaCleaner.cleanup_empty_directories cfgLive
      [("/media/b", .emptyRmOk)]).1 = ["/media/b"] :=
  ⟨rfl, rfl⟩

/-- C1 amended: an I/O or permission error raised while inspecting or
removing a directory is caught by the walk-level handler — it is logged
once and does not crash the process — but it ends the walk: directories
before the failing one in walk order are pruned as usual and every
directory after it is left untouched. -/
theorem C1_error_logged_but_walk_aborts (cfg : Config)
    (pre : List (String × DirOutcome)) (p : String)
    (o : DirOutcome) (suf : List (String × DirOutcome))
    (hd : cfg.delete_empty_dirs = true) (hr : cfg.dry_run = false)
    (hpre : ∀ x ∈ pre, x.2.raisesExc = false) (ho : o.raisesExc = true) :
    MediaCleaner.cleanup_empty_directories cfg (pre ++ (p, o) :: suf) =
      ((pre.filter (fun x => x.2.removes)).map (fun x => x.1),
       ["Failed to cleanup empty directories: " ++ p]) := by
  unfold MediaCleaner.cleanup_empty_directories
  rw [hd, hr]
  simp only [Bool.not_true, Bool.false_or, if_neg (by simp : ¬ false = true)]
  induction pre with
  | nil =>
    cases o with
    | listRaises => rfl
    | nonEmptyDir => simp [DirOutcome.raisesExc] at ho
    | emptyRmOk => simp [DirOutcome.raisesExc] at ho
    | emptyRmRaises => rfl
  | cons q qs ih =>
    have hq : q.2.raisesExc = false := hpre q (List.mem_cons_self q qs)
    have hqs : ∀ x ∈ qs, x.2.raisesExc = false :=
      fun x hx => hpre x (List.mem_cons_of_mem q hx)
    obtain ⟨qp, qo⟩ := q
    cases qo with
    | listRaises => simp [DirOutcome.raisesExc] at hq
    | emptyRmRaises => simp [DirOutcome.raisesExc] at hq
    | nonEmptyDir =>
      simpa [pruneLoop, List.filter, DirOutcome.removes] using ih hqs
    | emptyRmOk =>
      have h2 := ih hqs
      simp only [List.cons_append, pruneLoop, List.append_eq]
      rw [h2]
      simp [List.filter, DirOutcome.removes]

theorem C1_error_logged_but_walk_aborts_witness :
    (cfgLive.delete_empty_dirs = true ∧ cfgLive.dry_run = false ∧
     (∀ x ∈ [("/media/ok", DirOutcome.emptyRmOk),
             ("/media/full", DirOutcome.nonEmptyDir)],
       x.2.raisesExc = false) ∧
     DirOutcome.emptyRmRaises.raisesExc = true) ∧
    MediaCleaner.cleanup_empty_directories cfgLive
      [("/media/ok", .emptyRmOk), ("/media/full", .nonEmptyDir),
       ("/media/bad", .emptyRmRaises), ("/media/late", .emptyRmOk)] =
      (["/media/ok"],
       ["Failed to cleanup empty directories: /media/bad"]) :=
  ⟨⟨rfl, rfl, by decide, rfl⟩,
   C1_error_logged_but_walk_aborts cfgLive
     [("/media/ok", .emptyRmOk), ("/media/full", .nonEmptyDir)]
     "/media/bad" .emptyRmRaises [("/media/late", .emptyRmOk)]
     rfl rfl (by decide) rfl⟩

/-- The C3 configuration document: required cleanup keys present, a sonarr
backend block present, and the performance section omitted entirely. -/
def docNoPerf : YamlDoc :=
  { cleanup := some
      { days_threshold := some 30, media_root := some "/media",
        delete_empty_dirs := none, dry_run := none },
    performance := none,
    sonarr := some { api_key := some "key", host := some "http://s:8989" },
    plex := none }

/-- Same document with the performance section present but empty. -/
def docEmptyPerf : YamlDoc :=
  { docNoPerf with
    performance := some { parallel_processing := none, max_workers := none } }

/-- C3 counterexample: the document that omits the performance section is
rejected — `data["performance"]` raises `KeyError`, caught by the
`except Exception` handler that calls `sys.exit` — instead of loading with
the documented defaults. -/
theorem C3_counterexample :
    MediaCleaner.load_config docNoPerf = .error "KeyError: performance" :=
  rfl

/-- C3 amended: a configuration document that omits the performance section
entirely is a fatal configuration error; `parallel_processing = true` and
`max_workers = 4` are defaulted only when the performance section is
present (as a mapping) but those keys are absent from it. -/
theorem C3_performance_section_required (days : Int) (root key host : String) :
    MediaCleaner.load_config
      { cleanup := some ⟨some days, some root, none, none⟩,
        performance := none,
        sonarr := some ⟨some key, some host⟩, plex := none } =
      .error "KeyError: performance" ∧
    MediaCleaner.load_config
      { cleanup := some ⟨some days, some root, none, none⟩,
        performance := some ⟨none, none⟩,
        sonarr := some ⟨some key, some host⟩, plex := none } =
      .ok { days_threshold := days, media_root := root,
            delete_empty_dirs := true, parallel_processing := true,
            max_workers := 4, dry_run := false, sonarr_enabled := true,
            sonarr_api_key := some key, sonarr_host := some host } :=
  ⟨rfl, rfl⟩

/-- When the comprehension raises no exception, its result is exactly the
filter of the input by the eligibility predicate. -/
theorem eligibleComprehension_eq_filter (thr : PyDateTime) :
    ∀ (eps res : List Episode), eligibleComprehension thr eps = .ok res →
      res = eps.filter (fun ep => eligibleB ep thr) := by
  intro eps
  induction eps with
  | nil =>
    intro res h
    simp only [eligibleComprehension] at h
    cases h
    rfl
  | cons ep rest ih =>
    intro res h
    simp only [eligibleComprehension] at h
    cases hair : ep.airDateUtc with
    | none => simp only [hair] at h; exact absurd h (by simp)
    | some s =>
      simp only [hair] at h
      cases hparse : parseDateUtc s with
      | none => simp only [hparse] at h; exact absurd h (by simp)
      | some d =>
        simp only [hparse] at h
        cases hrec : eligibleComprehension thr rest with
        | error e => simp only [hrec] at h; exact absurd h (by simp)
        | ok tail =>
          simp only [hrec] at h
          have htail := ih tail hrec
          by_cases hc : (PyDateTime.lt d thr && ep.hasFile.getD false) = true
          · rw [if_pos hc] at h
            injection h with h2
            subst h2
            have hel : eligibleB ep thr = true := by
              simp only [eligibleB, hair, hparse]
              exact hc
            simp [List.filter_cons, hel, htail]
          · rw [if_neg hc] at h
            injection h with h2
            subst h2
            have hcf : (PyDateTime.lt d thr && ep.hasFile.getD false) = false := by
              revert hc
              cases PyDateTime.lt d thr && ep.hasFile.getD false <;> simp
            have hel : eligibleB ep thr = false := by
              simp only [eligibleB, hair, hparse]
              exact hcf
            simp [List.filter_cons, hel, htail]

/-- C4: whenever `get_episodes_to_delete` returns a list (raising no
exception), an episode is in the result iff it is in the fetched list, its
parsed air timestamp is strictly before the cutoff, and its file-presence
flag (`hasFile`, defaulting to false when absent) is true; in particular an
episode without a file is never in the result, however old. -/
theorem C4_eligibility_iff (sid : Nat) (thr : PyDateTime)
    (eps res : List Episode)
    (h : (SonarrManager.get_episodes_to_delete sid (.ok eps) thr).1 = .ok res) :
    ∀ ep, ep ∈ res ↔ (ep ∈ eps ∧ eligibleB ep thr = true) := by
  have hres : eligibleComprehension thr eps = .ok res := h
  intro ep
  rw [eligibleComprehension_eq_filter thr eps res hres]
  exact List.mem_filter

theorem C4_eligibility_iff_witness :
    (SonarrManager.get_episodes_to_delete 1 (.ok [epE1, epE2, epE3]) thrW).1 =
      .ok [epE1] ∧
    ((epE1 ∈ [epE1] ↔ (epE1 ∈ [epE1, epE2, epE3] ∧ eligibleB epE1 thrW = true)) ∧
     (epE2 ∈ [epE1] ↔ (epE2 ∈ [epE1, epE2, epE3] ∧ eligibleB epE2 thrW = true)) ∧
     (epE3 ∈ [epE1] ↔ (epE3 ∈ [epE1, epE2, epE3] ∧ eligibleB epE3 thrW = true))) :=
  ⟨rfl,
   C4_eligibility_iff 1 thrW [epE1, epE2, epE3] [epE1] rfl epE1,
   C4_eligibility_iff 1 thrW [epE1, epE2, epE3] [epE1] rfl epE2,
   C4_eligibility_iff 1 thrW [epE1, epE2, epE3] [epE1] rfl epE3⟩

/-- Under dry run the per-series loop issues no mutating HTTP calls. -/
theorem processSeriesList_dry_no_calls (cfg : Config) (thr : PyDateTime)
    (env : RunEnv) (h : cfg.dry_run = true) :
    ∀ series, (processSeriesList cfg thr env series).2.1 = [] := by
  intro series
  induction series with
  | nil => rfl
  | cons s rest ih =>
    simp only [processSeriesList]
    cases (SonarrManager.get_episodes_to_delete s.id
            (env.episodesFetch s.id) thr).1 with
    | error e => rfl
    | ok eps =>
      by_cases he : eps.isEmpty = true
      · simpa [he] using ih
      · rw [h]
        simp [he, SonarrManager.process_episode, ih, List.flatten_eq_nil_iff,
          List.map_map, Function.comp]

/-- C5: in any run with `dry_run = true`, no mutating effect is performed:
no unmonitor-update or file-delete HTTP call is issued, no Plex section is
updated, and no directory is removed, even when `delete_empty_dirs` is
enabled. -/
theorem C5_dry_run_no_mutation (cfg : Config) (thr : PyDateTime)
    (env : RunEnv) (h : cfg.dry_run = true) :
    (MediaCleaner.run cfg thr env).calls = [] ∧
    (MediaCleaner.run cfg thr env).refreshed = [] ∧
    (MediaCleaner.run cfg thr env).removedDirs = [] := by
  have key : ∀ t : Nat × List HttpCall × Option PyExc, t.2.1 = [] →
      (runAssemble cfg env t).calls = [] ∧
      (runAssemble cfg env t).refreshed = [] ∧
      (runAssemble cfg env t).removedDirs = [] := by
    rintro ⟨cnt, calls, exc⟩ ht
    simp only at ht
    subst ht
    cases exc with
    | some e => exact ⟨rfl, rfl, rfl⟩
    | none =>
      refine ⟨rfl, ?_, ?_⟩
      · simp only [runAssemble]
        by_cases hp : cfg.plex_enabled = true
        · simp [hp, PlexManager.refresh_libraries, h]
        · simp [hp]
      · simp only [runAssemble]
        by_cases hd : cfg.delete_empty_dirs = true
        · simp [hd, MediaCleaner.cleanup_empty_directories, h]
        · simp [hd]
  unfold MediaCleaner.run
  apply key
  by_cases hs : cfg.sonarr_enabled = true
  · simp [hs, processSeriesList_dry_no_calls cfg thr env h]
  · simp [hs]

/-- Dry-run configuration with every backend and pruning enabled. -/
def cfgDry : Config :=
  { days_threshold := 30, media_root := "/media", delete_empty_dirs := true,
    parallel_processing := true, max_workers := 4, dry_run := true,
    sonarr_enabled := true, sonarr_api_key := some "key",
    sonarr_host := some "http://sonarr:8989", plex_enabled := true,
    plex_url := some "http://plex:32400", plex_token := some "tok" }

/-- Environment with an eligible episode, a refreshable show section and a
removable empty directory — everything a non-dry run would mutate. -/
def envMut : RunEnv :=
  { seriesFetch := .ok [⟨1, "Show", "daily"⟩],
    episodesFetch := fun _ => .ok [epE1],
    net := fun _ => .response 200,
    sections := [⟨"TV Shows", "show", false⟩],
    dirs := [("/media/empty", .emptyRmOk)] }

theorem C5_dry_run_no_mutation_witness :
    cfgDry.dry_run = true ∧
    ((MediaCleaner.run cfgDry thrW envMut).calls = [] ∧
     (MediaCleaner.run cfgDry thrW envMut).refreshed = [] ∧
     (MediaCleaner.run cfgDry thrW envMut).removedDirs = []) :=
  ⟨rfl, C5_dry_run_no_mutation cfgDry thrW envMut rfl⟩

/-- The sequential counter of lines 243-245 computes the number of
successes in the batch, i.e. the length of the filtered result list that
the parallel branch (line 241) counts. -/
theorem foldl_count_eq_filter_length :
    ∀ (rs : List EpisodeResult) (n : Nat),
      rs.foldl (fun acc r => if r.success then acc + 1 else acc) n =
      n + (rs.filter (fun r => r.success)).length := by
  intro rs
  induction rs with
  | nil => intro n; simp
  | cons r rest ih =>
    intro n
    by_cases hr : r.success = true
    all_goals simp [List.foldl_cons, List.filter_cons, hr, ih]
    all_goals omega

/-- The per-series loop is insensitive to the parallelism flag: with a
fixed vector of per-episode outcomes the pool's collected-results count
and the sequential increment count agree, and the issued calls and
escaping exception are identical. -/
theorem processSeriesList_parallel_eq (cfg : Config) (thr : PyDateTime)
    (env : RunEnv) :
    ∀ series,
      processSeriesList { cfg with parallel_processing := true } thr env series =
      processSeriesList { cfg with parallel_processing := false } thr env series := by
  intro series
  induction series with
  | nil => rfl
  | cons s rest ih =>
    simp only [processSeriesList]
    cases (SonarrManager.get_episodes_to_delete s.id
            (env.episodesFetch s.id) thr).1 with
    | error e => rfl
    | ok eps =>
      by_cases he : eps.isEmpty = true
      · simpa [he] using ih
      · simp only [he, Bool.false_eq_true, if_false, ih,
          foldl_count_eq_filter_length, Nat.zero_add, if_true]

/-- C10: for every configuration, cutoff and environment, the run with
parallel processing enabled and the run with it disabled produce the same
outcome — in particular the same `total_processed` aggregate. -/
theorem C10_parallel_eq_sequential (cfg : Config) (thr : PyDateTime)
    (env : RunEnv) :
    MediaCleaner.run { cfg with parallel_processing := true } thr env =
    MediaCleaner.run { cfg with parallel_processing := false } thr env := by
  obtain ⟨d1, d2, d3, d4, d5, d6, d7, d8, d9, d10, d11, d12⟩ := cfg
  have hasm : ∀ t : Nat × List HttpCall × Option PyExc,
      runAssemble ⟨d1, d2, d3, true, d5, d6, d7, d8, d9, d10, d11, d12⟩ env t =
      runAssemble ⟨d1, d2, d3, false, d5, d6, d7, d8, d9, d10, d11, d12⟩ env t := by
    rintro ⟨cnt, calls, exc⟩
    cases exc <;> rfl
  unfold MediaCleaner.run
  cases d7 with
  | false => exact hasm _
  | true =>
    rw [processSeriesList_parallel_eq
      ⟨d1, d2, d3, d4, d5, d6, true, d8, d9, d10, d11, d12⟩ thr env]
    exact hasm _
